import Mathlib

/-!
Verification development for the `ambermeta` protocol assembler and
cross-stage validator (`src/ambermeta/protocol.py` and the legacy
extractors it builds on).

Python floats are modelled as exact rationals (`Rat`); every numeric
comparison exercised by a theorem below is far from the rounding error
of IEEE doubles, so the outcomes agree with the Python program.
Python lists and dicts are modelled as Lean lists (dicts as association
lists in insertion order, which is what CPython guarantees).
-/

namespace Ambermeta

/-! ### Python string / value helpers -/

/-- Python `pat in s` (substring containment). -/
def pyIn (pat s : String) : Bool :=
  (s.toList.tails).any (fun t => pat.toList.isPrefixOf t)

/-- Python `s.lower()` (the programs only lowercase ASCII text). -/
def pyLower (s : String) : String :=
  s.map Char.toLower

/-- Python `s.startswith(pre)`. -/
def pyStartsWith (pre s : String) : Bool :=
  pre.toList.isPrefixOf s.toList

/-- Split a character list on a separator character (Python
`s.split(sep)` for a one-character separator). -/
def splitOnCharAux (sep : Char) : List Char → List Char → List (List Char)
  | [], acc => [acc.reverse]
  | c :: rest, acc =>
      if c = sep then acc.reverse :: splitOnCharAux sep rest []
      else splitOnCharAux sep rest (c :: acc)

/-- Python `s.split(sep)` for a one-character separator. -/
def splitOnChar (sep : Char) (l : List Char) : List (List Char) :=
  splitOnCharAux sep l []

/-- The characters matched by Python `str.strip()` / `\s`. -/
def pyWhitespace : List Char := [' ', '\t', '\n', '\r', '\x0b', '\x0c']

/-- Python `s.strip(cs)`: drop leading and trailing characters in `cs`. -/
def stripSet (cs : List Char) (l : List Char) : List Char :=
  ((l.dropWhile (cs.contains ·)).reverse.dropWhile (cs.contains ·)).reverse

/-- Digits-only string to `Nat` (`none` if empty or a non-digit occurs). -/
def digitsToNat (l : List Char) : Option Nat :=
  if l = [] ∨ ¬ l.all Char.isDigit then none
  else some (l.foldl (fun acc c => acc * 10 + (c.toNat - '0'.toNat)) 0)

/-- Python `int(str)`: optional sign then digits.  (Underscore digit
grouping and surrounding whitespace, which no theorem below exercises,
are not modelled.) -/
def pyParseInt (l : List Char) : Option Int :=
  match l with
  | '+' :: rest => (digitsToNat rest).map Int.ofNat
  | '-' :: rest => (digitsToNat rest).map (fun n => -(n : Int))
  | _ => (digitsToNat l).map Int.ofNat

/-- `10 ^ e` as a rational, for integer `e`. -/
def ratPow10 (e : Int) : Rat :=
  if 0 ≤ e then ((10 : Rat) ^ e.toNat) else 1 / ((10 : Rat) ^ (-e).toNat)

/-- Python `float(str)`: `[sign] (digits [. digits] | . digits) [(e|E) [sign] digits]`.
(`inf`/`nan` literals and underscore grouping are not modelled; no theorem
below reaches this function with such input.) -/
def pyParseFloat (l : List Char) : Option Rat :=
  let (sign, rest) :=
    match l with
    | '+' :: r => ((1 : Rat), r)
    | '-' :: r => ((-1 : Rat), r)
    | r => ((1 : Rat), r)
  let (mant, expPart) := rest.span (fun c => ¬ (c = 'e' ∨ c = 'E'))
  let expVal : Option Int :=
    match expPart with
    | [] => some 0
    | _ :: ex => pyParseInt ex
  let mantVal : Option Rat :=
    let (ip, rest2) := mant.span Char.isDigit
    match rest2 with
    | [] => if ip = [] then none else (digitsToNat ip).map (fun n => (n : Rat))
    | '.' :: fp =>
        if ¬ fp.all Char.isDigit then none
        else if ip = [] ∧ fp = [] then none
        else
          match digitsToNat (ip ++ fp) with
          | some n => some ((n : Rat) / ratPow10 fp.length)
          | none =>
              if ip ++ fp = [] then none
              else some 0   -- unreachable: ip ++ fp are digits and nonempty
    | _ => none
  match mantVal, expVal with
  | some m, some e => some (sign * m * ratPow10 e)
  | _, _ => none

/-! ### Decimal formatting (`%g`, `%.3f`, `str`)

The C `printf`-style formatting used in the validator notes is modelled on
exact rationals.  For every value that a theorem below evaluates, the
decimal expansion is exact and short, so the result agrees byte-for-byte
with CPython's output. -/

/-- The character for a decimal digit. -/
def natDigitChar (n : Nat) : Char := Char.ofNat (48 + n)

/-- Decimal digits of a natural number; the first argument is recursion fuel
(`n + 1` always suffices since the value shrinks by a factor 10 each step). -/
def natToStrAux : Nat → Nat → List Char
  | 0, _ => []
  | fuel + 1, n =>
      if n < 10 then [natDigitChar n]
      else natToStrAux fuel (n / 10) ++ [natDigitChar (n % 10)]

/-- Decimal representation of a natural number (Python `str(n)`). -/
def natToStr (n : Nat) : String := String.mk (natToStrAux (n + 1) n)

/-- Decimal representation of an integer (Python `str(n)`). -/
def intToStr : Int → String
  | .ofNat n => natToStr n
  | .negSucc n => "-" ++ natToStr (n + 1)

/-- Fuel-based base-10 logarithm (`natLog10 n = ⌊log10 n⌋` for `n ≥ 1`). -/
def log10fuel : Nat → Nat → Nat
  | 0, _ => 0
  | fuel + 1, n => if n < 10 then 0 else 1 + log10fuel fuel (n / 10)

/-- `⌊log10 n⌋` for `n ≥ 1` (and `0` for `n = 0`). -/
def natLog10 (n : Nat) : Nat := log10fuel n n

/-- Round a nonnegative rational to the nearest integer, ties to even. -/
def roundHalfEvenNat (x : Rat) : Nat :=
  let f := x.floor
  let frac := x - (f : Rat)
  let n := f.toNat
  if frac > 1/2 then n + 1
  else if frac < 1/2 then n
  else if n % 2 = 0 then n else n + 1

/-- The decimal exponent of `x > 0`: the unique `e` with `10^e ≤ x < 10^(e+1)`. -/
def decExp (x : Rat) : Int :=
  let c : Int := (natLog10 x.num.natAbs : Int) - (natLog10 x.den : Int)
  let c := if ratPow10 (c + 1) ≤ x then c + 1 else c
  if x < ratPow10 c then c - 1 else c

/-- Strip trailing `'0'` characters. -/
def stripTrailingZeros (s : String) : String :=
  String.mk ((s.toList.reverse.dropWhile (· = '0')).reverse)

/-- `%g` for a positive rational: 6 significant digits, trailing zeros
stripped, scientific notation for exponents `< -4` or `≥ 6`. -/
def fmtGPos (x : Rat) : String :=
  let e := decExp x
  let m := roundHalfEvenNat (x * ratPow10 (5 - e))
  let me : Nat × Int := if m ≥ 1000000 then (100000, e + 1) else (m, e)
  let ds := natToStr me.1
  let e := me.2
  if -4 ≤ e ∧ e < 6 then
    if 0 ≤ e then
      let ipLen := e.toNat + 1
      let ip := String.mk (ds.toList.take ipLen)
      let fp := stripTrailingZeros (String.mk (ds.toList.drop ipLen))
      if fp = "" then ip else ip ++ "." ++ fp
    else
      let zeros := String.mk (List.replicate (-(e + 1)).toNat '0')
      let fp := stripTrailingZeros (zeros ++ ds)
      "0." ++ fp
  else
    let ip := String.mk (ds.toList.take 1)
    let fp := stripTrailingZeros (String.mk (ds.toList.drop 1))
    let mant := if fp = "" then ip else ip ++ "." ++ fp
    let esign := if e < 0 then "-" else "+"
    let eabs := (if e < 0 then -e else e).toNat
    let estr := if eabs < 10 then "0" ++ natToStr eabs else natToStr eabs
    mant ++ "e" ++ esign ++ estr

/-- Python `f"{x:g}"`. -/
def fmtG (q : Rat) : String :=
  if q = 0 then "0"
  else if q < 0 then "-" ++ fmtGPos (-q)
  else fmtGPos q

/-- Python `f"{x:.3f}"` (fixed three decimals, round half to even). -/
def fmtF3 (q : Rat) : String :=
  let neg := q < 0
  let m := roundHalfEvenNat (|q| * 1000)
  let ip := natToStr (m / 1000)
  let fpN := m % 1000
  let fp :=
    if fpN < 10 then "00" ++ natToStr fpN
    else if fpN < 100 then "0" ++ natToStr fpN
    else natToStr fpN
  (if neg then "-" else "") ++ ip ++ "." ++ fp

/-- Python `repr` of a list of strings, e.g. `['prmtop', 'inpcrd']`. -/
def pyReprStrList (l : List String) : String :=
  "[" ++ String.intercalate ", " (l.map (fun s => "'" ++ s ++ "'")) ++ "]"

/-- Python `repr` of a list of ints, e.g. `[64528, 64530]`. -/
def pyReprIntList (l : List Int) : String :=
  "[" ++ String.intercalate ", " (l.map intToStr) ++ "]"

/-! ### Namelist parameter values

A value stored in an input-deck parameter mapping is an int, float, bool,
or string (`legacy_extractors/mdin.py`, `_clean_value`). -/

inductive NmlValue where
  | bool (b : Bool)
  | int (n : Int)
  | float (q : Rat)
  | str (s : String)
  | pyNone
deriving DecidableEq, Repr

/-- `_as_int` (`legacy_extractors/mdin.py` lines 174-186): bools and ints
pass through, floats only when integral, strings only when numeric and
free of `$`; `int(float(...))` truncates toward zero. -/
def asIntNml : NmlValue → Option Int
  | .bool b => some (if b then 1 else 0)
  | .int n => some n
  | .float q => if q.den = 1 then some q.num else none
  | .str s =>
      if s ≠ "" ∧ ¬ pyIn "$" s then
        (pyParseFloat ((s.map (fun c => if c = 'd' then 'e' else if c = 'D' then 'E' else c)).toList)).map
          (fun q => if 0 ≤ q then q.floor else q.ceil)
      else none
  | .pyNone => none

/-- `_as_float` (`legacy_extractors/mdin.py` lines 189-203).  NaN/Inf
filtering is vacuous over exact rationals. -/
def asFloatNml : NmlValue → Option Rat
  | .bool b => some (if b then 1 else 0)
  | .int n => some n
  | .float q => some q
  | .str s =>
      if s ≠ "" ∧ ¬ pyIn "$" s then
        pyParseFloat ((s.map (fun c => if c = 'd' then 'e' else if c = 'D' then 'E' else c)).toList)
      else none
  | .pyNone => none

/-! ### Metadata record types

Each structure carries exactly the fields of the corresponding Python
dataclass that the assembled claims read, with the same defaults.
Attribute reads the validator performs through `getattr(..., name, None)`
are modelled by explicit accessor functions, so that an attribute the
class does not declare yields `none` exactly as in Python. -/

/-- `PrmtopMetadata` (`legacy_extractors/prmtop.py`, the bundled copy of
the `extract_prmtop` script that `parsers/prmtop.py` wraps): `natom` is
declared, but — unlike the other three metadata classes — **no**
`n_atoms` property exists on this class. -/
structure PrmtopDetails where
  natom : Option Int := none
  box_dimensions : Option (List Rat) := none
deriving DecidableEq, Repr

/-- `getattr(prmtop_details, "n_atoms", None)`: the class declares no such
attribute, so the lookup always yields `None`. -/
def PrmtopDetails.n_atomsAttr (_ : PrmtopDetails) : Option Int := none

/-- `InpcrdMetadata` (`legacy_extractors/inpcrd.py`). -/
structure InpcrdDetails where
  natoms : Int := 0
  time : Option Rat := none
  has_box : Bool := false
deriving DecidableEq, Repr

/-- `getattr(inpcrd_details, "n_atoms", None)`: the `n_atoms` property
returns `natoms`. -/
def InpcrdDetails.n_atomsAttr (d : InpcrdDetails) : Option Int := some d.natoms

/-- `MdoutMetadata` (`legacy_extractors/mdout.py`).  The class declares no
`ntwx` attribute. -/
structure MdoutDetails where
  natoms : Int := 0
  box_type : String := "Vacuum"
  dt : Rat := 1/1000
  nstlim : Int := 0
deriving DecidableEq, Repr

/-- `getattr(mdout_details, "n_atoms", None)`: the `n_atoms` property
returns `natoms`. -/
def MdoutDetails.n_atomsAttr (d : MdoutDetails) : Option Int := some d.natoms

/-- `getattr(mdout_details, "ntwx", None)`: `MdoutMetadata` declares no
`ntwx` attribute, so the lookup always yields `None`. -/
def MdoutDetails.ntwxAttr (_ : MdoutDetails) : Option Int := none

/-- `TrajectoryMetadata` (`extract_mdcrd.py`, the script bundled as
`legacy_extractors.mdcrd` for `parsers/mdcrd.py`). -/
structure MdcrdDetails where
  n_atoms : Int := 0
  n_frames : Int := 0
  time_end : Option Rat := none
  avg_dt : Option Rat := none
  total_duration : Rat := 0
  has_box : Bool := false
deriving DecidableEq, Repr

/-- `getattr(mdcrd_details, "n_atoms", None)`. -/
def MdcrdDetails.n_atomsAttr (d : MdcrdDetails) : Option Int := some d.n_atoms

/-- `MdinMetadata` (`legacy_extractors/mdin.py`), restricted to the fields
the assembler and validator read.  `length_steps`, `dt` and `coord_freq`
are modelled as numbers (the `Union[int, str]` shell-variable case is not
exercised by any claim). -/
structure MdinDetails where
  title : String := "Unknown Title"
  length_steps : Rat := 0
  dt : Rat := 1/1000
  coord_freq : Int := 0
  ensemble : String := "Unknown"
  stage_role : String := "Generic MD Stage"
  cntrl_parameters : List (String × NmlValue) := []
deriving DecidableEq, Repr

/-- The wrapper dataclasses of `ambermeta/parsers/*.py`: `filename`,
`warnings`, and an optional `details` record.  Only `details` matters to
the assembler logic under verification. -/
structure FileData (α : Type) where
  details : Option α := none
deriving DecidableEq, Repr

/-- `SimulationStage` (`protocol.py` lines 122-136). -/
structure Stage where
  name : String := ""
  stage_role : Option String := none
  expected_gap_ps : Option Rat := none
  gap_tolerance_ps : Option Rat := none
  observed_gap_ps : Option Rat := none
  prmtop : Option (FileData PrmtopDetails) := none
  inpcrd : Option (FileData InpcrdDetails) := none
  mdin : Option (FileData MdinDetails) := none
  mdout : Option (FileData MdoutDetails) := none
  mdcrd : Option (FileData MdcrdDetails) := none
  restart_path : Option String := none
  validation : List String := []
  continuity : List String := []
deriving DecidableEq, Repr

/-- Python `self.prmtop and self.prmtop.details` (dataclass instances are
always truthy; the conjunction is falsy iff either is `None`). -/
def Stage.prmtopDetails (s : Stage) : Option PrmtopDetails := s.prmtop.bind (·.details)

/-- Python `self.inpcrd and self.inpcrd.details`. -/
def Stage.inpcrdDetails (s : Stage) : Option InpcrdDetails := s.inpcrd.bind (·.details)

/-- Python `self.mdin and self.mdin.details`. -/
def Stage.mdinDetails (s : Stage) : Option MdinDetails := s.mdin.bind (·.details)

/-- Python `self.mdout and self.mdout.details`. -/
def Stage.mdoutDetails (s : Stage) : Option MdoutDetails := s.mdout.bind (·.details)

/-- Python `self.mdcrd and self.mdcrd.details`. -/
def Stage.mdcrdDetails (s : Stage) : Option MdcrdDetails := s.mdcrd.bind (·.details)

/-! ### Per-stage validation (`SimulationStage._validate_*`) -/

/-- One truthy atom count with its label, in source order (used by
`_validate_atoms`; Python `if count:` skips both `None` and `0`). -/
def atomEntry (label : String) (v : Option Int) : List (Int × String) :=
  match v with
  | some n => if n ≠ 0 then [(n, label)] else []
  | none => []

/-- `SimulationStage._validate_atoms` (`protocol.py` lines 144-165). -/
def validateAtoms (s : Stage) : List String :=
  let entries :=
    (match s.prmtopDetails with | some d => atomEntry "prmtop" d.n_atomsAttr | none => [])
    ++ (match s.inpcrdDetails with | some d => atomEntry "inpcrd" d.n_atomsAttr | none => [])
    ++ (match s.mdoutDetails with | some d => atomEntry "mdout" d.n_atomsAttr | none => [])
    ++ (match s.mdcrdDetails with | some d => atomEntry "mdcrd" d.n_atomsAttr | none => [])
  let counts := entries.map (·.1)
  let labels := entries.map (·.2)
  if counts = [] then ["No atom counts available for validation."]
  else if counts.dedup.length > 1 then
    ["Atom count mismatch across " ++ pyReprStrList labels ++ ": " ++ pyReprIntList counts]
  else []

/-- `SimulationStage._validate_box` (`protocol.py` lines 167-183): the
box-source labels are collected but the method always returns `[]`. -/
def validateBox (s : Stage) : List String :=
  let boxes :=
    (match s.prmtopDetails with
     | some d => if (d.box_dimensions.map (fun l => decide (l ≠ []))).getD false then ["prmtop"] else []
     | none => [])
    ++ (match s.inpcrdDetails with
        | some d => if d.has_box then ["inpcrd"] else []
        | none => [])
    ++ (match s.mdcrdDetails with
        | some d => if d.has_box then ["mdcrd"] else []
        | none => [])
    ++ (match s.mdoutDetails with
        | some d => if d.box_type ≠ "" then ["mdout"] else []
        | none => [])
  let _ := boxes.length ≥ 2   -- the `len(boxes) >= 2` branch contains only `pass`
  []

/-- The `_compare` closure inside `_validate_timing` (`protocol.py`
lines 223-234).  All stored values are numbers in this model, so the
`isinstance` guards always hold. -/
def compareValues (values : List (String × Rat)) (description suffix : String) : List String :=
  match values with
  | [] => []
  | (baseLabel, baseValue) :: rest =>
      rest.filterMap fun lv =>
        if baseValue ≠ lv.2 then
          let sep := if suffix ≠ "" then " " else ""
          some (description ++ " differs between " ++ baseLabel ++ " and " ++ lv.1
            ++ " (" ++ fmtG baseValue ++ sep ++ suffix ++ " vs " ++ fmtG lv.2 ++ sep ++ suffix ++ ").")
        else none

/-- `SimulationStage._validate_timing` (`protocol.py` lines 185-260). -/
def validateTiming (s : Stage) : List String :=
  let mdinPart :=
    match s.mdinDetails with
    | some d =>
        ((if d.length_steps ≠ 0 then [("mdin", d.length_steps)] else []),
         (if d.dt ≠ 0 then [("mdin", d.dt)] else []),
         (if d.length_steps ≠ 0 ∧ d.dt ≠ 0 then [("mdin", d.length_steps * d.dt)] else []))
    | none => ([], [], [])
  let mdoutPart :=
    match s.mdoutDetails with
    | some d =>
        ((if d.nstlim ≠ 0 then [("mdout", (d.nstlim : Rat))] else []),
         (if d.dt ≠ 0 then [("mdout", d.dt)] else []),
         (if d.nstlim ≠ 0 ∧ d.dt ≠ 0 then [("mdout", (d.nstlim : Rat) * d.dt)] else []))
    | none => ([], [], [])
  let stepCounts := mdinPart.1 ++ mdoutPart.1
  let timesteps := mdinPart.2.1 ++ mdoutPart.2.1
  let expectedDurations := mdinPart.2.2 ++ mdoutPart.2.2
  let mdcrdDuration : Option Rat :=
    match s.mdcrdDetails with
    | some d =>
        if d.total_duration ≠ 0 then some d.total_duration
        else match d.avg_dt with
          | some adt =>
              if adt ≠ 0 ∧ d.n_frames ≠ 0 ∧ d.n_frames > 1 then
                some (adt * ((d.n_frames : Rat) - 1))
              else none
          | none => none
    | none => none
  let notes := compareValues stepCounts "Step count" ""
    ++ compareValues timesteps "Timestep" "ps per step"
    ++ compareValues expectedDurations "Simulation duration" "ps"
  let durationNotes :=
    match mdcrdDuration with
    | some md =>
        if md ≠ 0 ∧ expectedDurations ≠ [] then
          expectedDurations.filterMap fun ld =>
            let tol : Rat := 1/1000000
            let tol := match s.mdcrdDetails.bind (·.avg_dt) with
              | some a => max tol a
              | none => tol
            let tol := match timesteps.lookup ld.1 with
              | some t => max tol t
              | none => tol
            if |ld.2 - md| > tol then
              some ("Trajectory duration from mdcrd (" ++ fmtG md
                ++ " ps) differs from expected duration from " ++ ld.1
                ++ " (" ++ fmtG ld.2 ++ " ps).")
            else none
        else []
    | none => []
  notes ++ durationNotes

/-- `SimulationStage._validate_sampling` (`protocol.py` lines 262-274). -/
def validateSampling (s : Stage) : List String :=
  let freq : List (String × Option Int) :=
    (match s.mdinDetails with | some d => [("mdin", some d.coord_freq)] | none => [])
    ++ (match s.mdoutDetails with | some d => [("mdout", d.ntwxAttr)] | none => [])
  match freq with
  | [] => []
  | (baseLabel, baseVal) :: rest =>
      rest.filterMap fun lv =>
        match baseVal, lv.2 with
        | some b, some x =>
            if b ≠ 0 ∧ x ≠ 0 ∧ b ≠ x then
              some ("Coordinate write frequency differs between " ++ baseLabel
                ++ " and " ++ lv.1 ++ " (" ++ intToStr b ++ " vs " ++ intToStr x ++ ").")
            else none
        | _, _ => none

/-- The four note lists `SimulationStage.validate` appends, in order. -/
def stageNotes (s : Stage) : List String :=
  validateAtoms s ++ validateBox s ++ validateTiming s ++ validateSampling s

/-- `SimulationStage.validate` (`protocol.py` lines 138-142): the four
sub-validators each `extend` `self.validation`; nothing is cleared. -/
def stageValidate (s : Stage) : Stage :=
  { s with validation := s.validation ++ stageNotes s }

/-! ### Cross-stage continuity (`SimulationProtocol._check_continuity`) -/

/-- The body of the `_check_continuity` loop for one `(prev, current)` pair
(`protocol.py` lines 335-403).  Returns the value written to
`current.observed_gap_ps` (`none` when the branch `continue`s without
setting it) and the notes passed to `_add_continuity_note`, in order. -/
def continuityUpdate (prev cur : Stage) : Option Rat × List String :=
  match prev.mdcrdDetails, cur.inpcrdDetails with
  | some pd, some cd =>
      (match pd.time_end, cd.time with
       | some endTime, some startTime =>
           let gap := startTime - endTime
           let gap :=
             if cur.expected_gap_ps = none then
               let defaultTolerance : Rat := 1/1000000
               let tolerance := match pd.avg_dt with
                 | some priorDt => max (priorDt * (1/1000000)) defaultTolerance
                 | none => defaultTolerance
               if |gap| ≤ tolerance then 0 else gap
             else gap
           let overlapNotes :=
             if gap < 0 then
               ["Stage appears to overlap previous stage by " ++ fmtG |gap| ++ " ps."]
             else if gap > 0 then
               ["Stage starts " ++ fmtG gap ++ " ps after previous ended."]
             else []
           let expectedNotes :=
             match cur.expected_gap_ps with
             | some expected =>
                 let tolerance := cur.gap_tolerance_ps.getD 0
                 if gap < expected - tolerance then
                   ["Observed gap " ++ fmtG gap ++ " ps is shorter than expected "
                     ++ fmtG expected ++ " ps."]
                 else if gap > expected + tolerance then
                   ["Observed gap " ++ fmtG gap ++ " ps exceeds expected "
                     ++ fmtG expected ++ " ps."]
                 else
                   ["Observed gap " ++ fmtG gap ++ " ps is within expected window ("
                     ++ fmtG expected ++ "±" ++ fmtG tolerance ++ " ps)."]
             | none =>
                 if gap ≠ 0 then
                   ["Gap detected without stated expectation; verify continuity."]
                 else []
           (some gap, overlapNotes ++ expectedNotes)
       | _, _ =>
           (none,
            match cur.expected_gap_ps with
            | some _ => ["Expected gap could not be verified because timing metadata is missing."]
            | none => []))
  | pdOpt, cdOpt =>
      let missing := (if pdOpt.isNone then ["mdcrd from " ++ prev.name] else [])
        ++ (if cdOpt.isNone then ["inpcrd from " ++ cur.name] else [])
      (none,
       ["INFO: Cannot verify continuity between " ++ prev.name ++ " and " ++ cur.name
         ++ " (missing " ++ String.intercalate ", " missing ++ ")"])

/-- Apply one continuity-loop iteration to `current`.
`_add_continuity_note` appends each note to both `continuity` and
`validation` (`protocol.py` lines 276-278). -/
def updateStage (prev cur : Stage) : Stage :=
  let gn := continuityUpdate prev cur
  { cur with
    observed_gap_ps := match gn.1 with | some g => some g | none => cur.observed_gap_ps
    continuity := cur.continuity ++ gn.2
    validation := cur.validation ++ gn.2 }

/-- `SimulationProtocol._check_continuity` iterates over
`zip(self.stages, self.stages[1:])`.  The loop mutates only fields of
`current` that the loop never reads from `prev` (`observed_gap_ps`,
`continuity`, `validation`), so updating each pair independently is
equivalent to the in-place Python loop. -/
def checkContinuity (stages : List Stage) : List Stage :=
  match stages with
  | [] => []
  | s0 :: rest => s0 :: List.zipWith updateStage (s0 :: rest) rest

/-- `SimulationProtocol.validate` (`protocol.py` lines 328-332). -/
def protocolValidate (crossStage : Bool) (stages : List Stage) : List Stage :=
  let vs := stages.map stageValidate
  if crossStage then checkContinuity vs else vs

/-! ### Manifest validation and stage construction
(`protocol.py`: `validate_manifest`, `_manifest_to_stages`)

A manifest entry is modelled in its already-normalized list form.  The
top-level file keys and the nested `files` mapping are kept as ordered
association lists, matching CPython dict insertion order.  Fields no
claim touches (`gaps`, `notes`) are omitted. -/

/-- The file kinds a manifest entry may reference (`protocol.py` line 763). -/
def manifestKinds : List String := ["prmtop", "inpcrd", "mdin", "mdout", "mdcrd"]

structure ManifestEntry where
  name : Option String := none
  stage_role : Option String := none
  /-- Top-level items of the entry dict whose key is a file kind, in dict
  order, with their (possibly `None`) values. -/
  top : List (String × Option String) := []
  /-- The nested `files` mapping, in dict order. -/
  files : List (String × Option String) := []
deriving DecidableEq, Repr

/-- The merged `paths` dict: top-level kind keys first (a `None` value
still occupies the key), then `files` entries added by `setdefault`
(only for kind keys with non-`None` values, and only when the key is
absent) — `protocol.py` lines 770-775 and 838-843. -/
def entryPaths (e : ManifestEntry) : List (String × Option String) :=
  e.files.foldl
    (fun acc kv =>
      match kv.2 with
      | some p => if manifestKinds.contains kv.1 ∧ ¬ acc.any (fun ab => ab.1 = kv.1)
          then acc ++ [(kv.1, some p)] else acc
      | none => acc)
    (e.top.filter (fun kv => manifestKinds.contains kv.1))

/-- `os.path.isabs` on POSIX. -/
def pyIsAbs (p : String) : Bool := p.startsWith "/"

/-- `os.path.join(d, p)` for a relative `p` on POSIX. -/
def pyJoin (d p : String) : String :=
  if d = "" then p else if d.endsWith "/" then d ++ p else d ++ "/" ++ p

/-- The `resolved` dict: skip `None` paths, prefix relative paths with the
base directory (`protocol.py` lines 777-784 and 845-852). -/
def entryResolved (directory : Option String) (e : ManifestEntry) : List (String × String) :=
  (entryPaths e).filterMap fun kv =>
    kv.2.map fun p =>
      (kv.1,
       match directory with
       | some d => if d ≠ "" ∧ ¬ pyIsAbs p then pyJoin d p else p
       | none => p)

/-- The exceptions `validate_manifest` / `_manifest_to_stages` can raise. -/
inductive ManifestError where
  | valueError (msg : String)
  | fileNotFound (msg : String)
deriving DecidableEq, Repr

/-- Python truthiness of the optional `name` field. -/
def nameTruthy : Option String → Bool
  | some n => n ≠ ""
  | none => false

/-- The missing-file lines contributed by one named entry
(`protocol.py` lines 786-788). -/
def entryMissingLines (fsExists : String → Bool) (directory : Option String)
    (e : ManifestEntry) (name : String) : List String :=
  (entryResolved directory e).filterMap fun kp =>
    if fsExists kp.2 then none
    else some ("stage '" ++ name ++ "', " ++ kp.1 ++ ": " ++ kp.2)

/-- The accumulation loop of `validate_manifest`: a missing/empty `name`
raises `ValueError` immediately; otherwise the missing lines of every
entry are collected. -/
def collectMissing (fsExists : String → Bool) (directory : Option String) :
    List ManifestEntry → Except ManifestError (List String)
  | [] => .ok []
  | e :: rest =>
      match e.name with
      | some n =>
          if n = "" then .error (.valueError "Each manifest entry must include a 'name'.")
          else (collectMissing fsExists directory rest).map
            (fun ms => entryMissingLines fsExists directory e n ++ ms)
      | none => .error (.valueError "Each manifest entry must include a 'name'.")

/-- `validate_manifest` (`protocol.py` lines 759-792). -/
def validateManifest (fsExists : String → Bool) (directory : Option String)
    (entries : List ManifestEntry) : Except ManifestError Unit :=
  match collectMissing fsExists directory entries with
  | .error err => .error err
  | .ok missing =>
      if missing ≠ [] then
        .error (.fileNotFound
          ("Manifest references missing files:\n" ++ String.intercalate "\n" missing))
      else .ok ()

/-- The five parser entry points, abstracted as pure functions from a
resolved path to the parsed record (each `XParser(path).parse()`). -/
structure Parsers where
  prmtop : String → FileData PrmtopDetails
  inpcrd : String → FileData InpcrdDetails
  mdin : String → FileData MdinDetails
  mdout : String → FileData MdoutDetails
  mdcrd : String → FileData MdcrdDetails

/-- The body of the `_manifest_to_stages` loop that assembles one stage
from a (validated) entry (`protocol.py` lines 828-881). -/
def buildStage (P : Parsers) (directory : Option String)
    (restartFiles : List (String × String)) (e : ManifestEntry) (name : String) : Stage :=
  let resolved := entryResolved directory e
  let s : Stage := { name := name, stage_role := e.stage_role }
  let s := match resolved.lookup "prmtop" with
    | some p => { s with prmtop := some (P.prmtop p) }
    | none => s
  let s := match resolved.lookup "mdin" with
    | some p =>
        let md : FileData MdinDetails := P.mdin p
        let s := { s with mdin := some md }
        let inferredRole : Option String := md.details.map (fun d : MdinDetails => d.stage_role)
        let roleFalsy : Bool := match s.stage_role with | none => true | some r => decide (r = "")
        match inferredRole with
        | some r =>
            if roleFalsy ∧ r ≠ "" then
              { s with stage_role := some r,
                       validation := s.validation
                         ++ ["INFO: stage_role '" ++ r ++ "' inferred from mdin file"] }
            else s
        | none => s
    | none => s
  let s := match resolved.lookup "mdout" with
    | some p => { s with mdout := some (P.mdout p) }
    | none => s
  let s := match resolved.lookup "mdcrd" with
    | some p => { s with mdcrd := some (P.mdcrd p) }
    | none => s
  let s := match resolved.lookup "inpcrd" with
    | some p => { s with inpcrd := some (P.inpcrd p), restart_path := some p }
    | none => s
  let restartSource :=
    match (if s.name ≠ "" then restartFiles.lookup s.name else none) with
    | some p => some p
    | none =>
        match s.stage_role with
        | some role => if role ≠ "" then restartFiles.lookup role else none
        | none => none
  match restartSource with
  | some p =>
      if (resolved.lookup "inpcrd").isNone then
        { s with inpcrd := some (P.inpcrd p), restart_path := some p }
      else s
  | none => s

/-- Python truthiness of an optional filter list (`include_stems and ...`). -/
def filterActive (l : Option (List String)) : Bool :=
  match l with
  | some xs => xs ≠ []
  | none => false

/-- The `continue` conditions that drop a built stage from the result
(`protocol.py` lines 883-888). -/
def stageFiltered (includeRoles includeStems : Option (List String)) (s : Stage) : Bool :=
  (filterActive includeStems && !(includeStems.getD []).contains s.name)
  || (filterActive includeRoles &&
      match s.stage_role with
      | some role => decide (role ≠ "") && !(includeRoles.getD []).contains role
      | none => false)
  || (filterActive includeRoles &&
      match s.stage_role with
      | some role => decide (role = "")
      | none => true)

/-- `_manifest_to_stages` (`protocol.py` lines 795-918): validate the whole
manifest first — no stage is constructed when any referenced file is
missing — then assemble and filter the stages in manifest order.
(`gaps`/`notes` handling is omitted: no claim reads it.) -/
def manifestToStages (P : Parsers) (fsExists : String → Bool) (directory : Option String)
    (includeRoles includeStems : Option (List String))
    (restartFiles : List (String × String))
    (entries : List ManifestEntry) : Except ManifestError (List Stage) :=
  match validateManifest fsExists directory entries with
  | .error err => .error err
  | .ok _ =>
      entries.foldlM
        (fun acc e =>
          match e.name with
          | some n =>
              if n = "" then .error (.valueError "Each manifest entry must include a 'name'.")
              else
                let s := buildStage P directory restartFiles e n
                if stageFiltered includeRoles includeStems s then .ok acc
                else .ok (acc ++ [s])
          | none => .error (.valueError "Each manifest entry must include a 'name'."))
        []

/-! ### Global and HMR topology overlays (`auto_discover`, manifest branch,
`protocol.py` lines 1306-1331) -/

/-- Apply the parsed global topology: only stages with no topology receive
it, and an INFO note is appended to their validation list. -/
def applyGlobalPrmtop (gdata : FileData PrmtopDetails) (globalName : String)
    (stages : List Stage) : List Stage :=
  stages.map fun s =>
    if s.prmtop.isNone then
      { s with prmtop := some gdata,
               validation := s.validation ++ ["INFO: using global prmtop: " ++ globalName] }
    else s

/-- `hasattr(stage.mdin, 'dt')`: the wrapper dataclass `MdinData`
(`parsers/mdin.py`) declares only `filename`, `warnings` and `details`
(the timestep lives on `details.dt`), so the attribute lookup fails on
every instance. -/
def mdinWrapperDtAttr (_ : FileData MdinDetails) : Option Rat := none

/-- `hasattr(stage.mdout, 'dt')`: likewise, `MdoutData`
(`parsers/mdout.py`) declares no `dt` attribute. -/
def mdoutWrapperDtAttr (_ : FileData MdoutDetails) : Option Rat := none

/-- The `dt` probed by the HMR loop (`protocol.py` lines 1322-1327):
`stage.mdin.dt` if that attribute existed, else `stage.mdout.dt`, else
`None`. -/
def hmrStageDt (s : Stage) : Option Rat :=
  match s.mdin.bind mdinWrapperDtAttr with
  | some d => some d
  | none => s.mdout.bind mdoutWrapperDtAttr

/-- Apply the parsed HMR topology to every stage whose probed `dt` is at
least `0.004` ps (`protocol.py` lines 1316-1331).  Note that when the
condition fires the assignment *overwrites* `stage.prmtop`
unconditionally. -/
def applyHmrPrmtop (hdata : FileData PrmtopDetails) (hmrName : String)
    (stages : List Stage) : List Stage :=
  stages.map fun s =>
    match hmrStageDt s with
    | some dt =>
        if dt ≥ 1/250 then
          { s with prmtop := some hdata,
                   validation := s.validation
                     ++ ["INFO: using HMR prmtop (dt=" ++ fmtG dt ++ " ps): " ++ hmrName] }
        else s
    | none => s


/-! ### Input-deck value cleaning (`legacy_extractors/mdin.py`,
`_clean_value` lines 116-147 and the storage loop of
`_parse_namelist_string` lines 166-171) -/

/-- `_clean_value`: strip whitespace, commas and quotes; keep any value
containing `$` as a verbatim string; then Fortran booleans, ints, floats
(with `d`/`D` exponent markers), else the raw string. -/
def cleanValueL (l : List Char) : NmlValue :=
  let v := stripSet ['\''] (stripSet ['"'] (stripSet [','] (stripSet pyWhitespace l)))
  if v = [] then .str ""
  else if v.contains '$' then .str (String.mk v)
  else if String.mk (v.map Char.toLower) = ".true." then .bool true
  else if String.mk (v.map Char.toLower) = ".false." then .bool false
  else
    match pyParseInt v with
    | some n => .int n
    | none =>
        match pyParseFloat (v.map (fun c => if c = 'd' then 'e' else if c = 'D' then 'E' else c)) with
        | some q => .float q
        | none => .str (String.mk v)

/-- `_clean_value` on a `String`. -/
def cleanValue (s : String) : NmlValue := cleanValueL s.toList

/-- CPython dict assignment `data[key] = value` on an insertion-ordered
association list: overwrite in place if the key exists, else append. -/
def dictSet (l : List (String × NmlValue)) (k : String) (v : NmlValue) :
    List (String × NmlValue) :=
  if l.any (fun kv => kv.1 = k) then
    l.map (fun kv => if kv.1 = k then (k, v) else kv)
  else l ++ [(k, v)]

/-- The storage loop of `_parse_namelist_string` given the `(key, value)`
token pairs produced by the finder of key/value matches (each captured
value token is the exact matched substring):
`data[key.lower()] = _clean_value(value)`. -/
def parseNamelistPairs (ms : List (String × String)) : List (String × NmlValue) :=
  ms.foldl (fun data kv => dictSet data (pyLower kv.1) (cleanValue kv.2)) []

/-! ### Stage-role classification (`legacy_extractors/mdin.py`,
`_classify_stage` lines 533-592, applied to every parsed deck at
line 479) and path-based inference (`protocol.py`,
`infer_stage_role_from_path` lines 984-1022) -/

/-- `c.get(key, default)` on the control-parameter mapping. -/
def cntrlGet (c : List (String × NmlValue)) (k : String) (dflt : NmlValue) : NmlValue :=
  (c.lookup k).getD dflt

/-- `_classify_stage`: heuristic free-form description of the deck role. -/
def classifyStage (md : MdinDetails) : String :=
  let title := pyLower md.title
  let c := md.cntrl_parameters
  let imin_i := (asIntNml (cntrlGet c "imin" (.int 0))).getD 0
  let ntr_i := (asIntNml (cntrlGet c "ntr" (.int 0))).getD 0
  let nstlim_i := (asIntNml (cntrlGet c "nstlim" (.int 0))).getD 0
  let dt_f := (asFloatNml (cntrlGet c "dt" (.float md.dt))).getD 0
  let total_ns : Option Rat :=
    if nstlim_i > 0 ∧ dt_f > 0 then some ((nstlim_i : Rat) * dt_f / 1000) else none
  if imin_i ≠ 0 ∨ pyIn "minim" title ∨ pyIn "energy minim" title then
    "Energy minimization"
  else if pyIn "heat" title ∨ pyIn "thermal" title then
    "Heating / thermalization"
  else if pyIn "equil" title ∨ pyIn "nvt" title ∨ pyIn "npt equil" title then
    if ntr_i ≠ 0 then "Equilibration with positional restraints [" ++ md.ensemble ++ "]"
    else "Equilibration [" ++ md.ensemble ++ "]"
  else if pyIn "prod" title ∨ pyIn "production" title then
    if ntr_i ≠ 0 then "Production with restraints [" ++ md.ensemble ++ "]"
    else "Production [" ++ md.ensemble ++ "]"
  else
    match total_ns with
    | some t =>
        if t < 1/10 then
          if ntr_i ≠ 0 then "Short restrained equilibration (" ++ fmtF3 t ++ " ns)"
          else "Short MD segment (" ++ fmtF3 t ++ " ns)"
        else if t ≤ 5 then
          if ntr_i ≠ 0 then "Equilibration with restraints (" ++ fmtF3 t ++ " ns)"
          else "Short production or equilibration (" ++ fmtF3 t ++ " ns)"
        else
          if ntr_i ≠ 0 then "Long production run with restraints (" ++ fmtF3 t ++ " ns)"
          else "Production run (" ++ fmtF3 t ++ " ns)"
    | none => "Generic MD stage [" ++ md.ensemble ++ "]"

/-- `parse_mdin_file` sets `md.stage_role = _classify_stage(md)`
(`legacy_extractors/mdin.py` line 479). -/
def mdinFinalizeStageRole (md : MdinDetails) : MdinDetails :=
  { md with stage_role := classifyStage md }

/-- The closed role set named by the specification. -/
def closedRoles : List String := ["minimization", "heating", "equilibration", "production"]

/-- The per-part tests of the `for part in parts` loop of
`infer_stage_role_from_path`. -/
def classifyPart (part : String) : Option String :=
  if pyStartsWith "min" part ∨ pyIn "_min" part ∨ part = "em" then some "minimization"
  else if pyIn "heat" part ∨ pyIn "warm" part then some "heating"
  else if pyStartsWith "equil" part ∨ part = "nvt" ∨ part = "npt" ∨ pyIn "_equil" part then
    some "equilibration"
  else if pyStartsWith "prod" part ∨ pyIn "_prod" part then some "production"
  else none

/-- First part that classifies (the loop returns on first match). -/
def loopParts : List String → Option String
  | [] => none
  | p :: rest =>
      match classifyPart p with
      | some r => some r
      | none => loopParts rest

/-- `infer_stage_role_from_path` (`protocol.py` lines 984-1022). -/
def inferStageRoleFromPath (path : String) : Option String :=
  let pathLowerChars :=
    (path.toList.map Char.toLower).map (fun c => if c = '\\' then '/' else c)
  let parts := (splitOnChar '/' pathLowerChars).map String.mk
  match loopParts parts with
  | some r => some r
  | none =>
      let filename := (parts.getLast?).getD ""
      if ["min", "minim", "em"].any (fun x => pyIn x filename) then some "minimization"
      else if ["heat", "warm"].any (fun x => pyIn x filename) then some "heating"
      else if ["equil", "nvt_", "npt_"].any (fun x => pyIn x filename) then some "equilibration"
      else if pyIn "prod" filename then some "production"
      else none

/-! ### Methods-view pruning (`protocol.py`, `_prune_methods_value`
lines 83-108) -/

/-- A Python value as walked by the methods-view pruner. -/
inductive MVal where
  | pyNone
  | bool (b : Bool)
  | int (n : Int)
  | num (q : Rat)
  | str (s : String)
  | list (items : List MVal)
  | dict (entries : List (String × MVal))
deriving Repr

/-- The two `continue` conditions: `cleaned is None`, or
`isinstance(cleaned, (dict, list)) and len(cleaned) == 0`. -/
def pruneSkip : MVal → Bool
  | .pyNone => true
  | .dict [] => true
  | .list [] => true
  | _ => false

mutual

/-- `_prune_methods_value`: recursively drop `None` and empty containers
from dicts and lists; every scalar — including `False`, `0` and `""` —
is returned unchanged. -/
def pruneMethodsValue : MVal → MVal
  | .pyNone => .pyNone
  | .dict entries => .dict (pruneDictEntries entries)
  | .list items => .list (pruneListItems items)
  | .bool b => .bool b
  | .int n => .int n
  | .num q => .num q
  | .str s => .str s

/-- The dict comprehension loop of `_prune_methods_value`. -/
def pruneDictEntries : List (String × MVal) → List (String × MVal)
  | [] => []
  | (k, v) :: rest =>
      let cleaned := pruneMethodsValue v
      let restPruned := pruneDictEntries rest
      if pruneSkip cleaned then restPruned else (k, cleaned) :: restPruned

/-- The list loop of `_prune_methods_value`. -/
def pruneListItems : List MVal → List MVal
  | [] => []
  | v :: rest =>
      let cleaned := pruneMethodsValue v
      let restPruned := pruneListItems rest
      if pruneSkip cleaned then restPruned else cleaned :: restPruned

end

/-! ### Full-view serialization (`protocol.py`, `_serialize_value`
lines 35-69) and the `dataclasses.asdict` call it makes at line 58

Object graphs are modelled with an explicit heap: scalars are immediate,
every container lives at an address (in Python every container has an
`id`, which is what the `_visited` set stores).  The serializer carries a
recursion budget: CPython raises `RecursionError` once the interpreter
stack is exhausted, so "diverges for every budget" is exactly "crashes
with `RecursionError`". -/

/-- A Python value reference: a scalar, or the address of a container. -/
inductive HVal where
  | pnone
  | pbool (b : Bool)
  | pint (n : Int)
  | pstr (s : String)
  | ref (a : Nat)
deriving DecidableEq, Repr

/-- A heap container: list (also tuples/sets), dict, or dataclass instance. -/
inductive HNode where
  | list (items : List HVal)
  | dict (entries : List (String × HVal))
  | dataclass (fields : List (String × HVal))
deriving Repr

/-- An object heap, mapping addresses to containers. -/
abbrev Heap := List (Nat × HNode)

/-- The JSON-compatible output of `_serialize_value`. -/
inductive SVal where
  | snone
  | sbool (b : Bool)
  | sint (n : Int)
  | sstr (s : String)
  | slist (items : List SVal)
  | sdict (entries : List (String × SVal))
deriving Repr

/-- The recursive worker of the CPython standard-library function
`dataclasses.asdict` (called at `protocol.py` line 58): it copies
dataclasses into dicts and descends through lists and dicts, with **no**
cycle detection.  `none` means the recursion budget was exhausted, i.e.
`RecursionError` in CPython. -/
def asdictVal (heap : Heap) : Nat → HVal → Option SVal
  | _, .pnone => some .snone
  | _, .pbool b => some (.sbool b)
  | _, .pint n => some (.sint n)
  | _, .pstr s => some (.sstr s)
  | 0, .ref _ => none
  | fuel + 1, .ref a =>
      match heap.lookup a with
      | some (.dataclass fields) =>
          (fields.mapM (fun kv => (asdictVal heap fuel kv.2).map (fun r => (kv.1, r)))).map .sdict
      | some (.list items) =>
          (items.mapM (asdictVal heap fuel)).map .slist
      | some (.dict entries) =>
          (entries.mapM (fun kv => (asdictVal heap fuel kv.2).map (fun r => (kv.1, r)))).map .sdict
      | none => none

/-- `_serialize_value` with the `_visited` identity set: scalars pass
through; a re-entered address renders as `"<circular reference>"`; lists
and dicts are walked with the current address added to (and, as in the
`finally` clause, removed after the branch from) the visited set.  A
dataclass is converted eagerly by `asdict` — whose output is fresh plain
data, so walking it again is the identity — before the walk continues.
`none` means the recursion budget was exhausted (`RecursionError`). -/
def serializeValue (heap : Heap) : Nat → List Nat → HVal → Option SVal
  | _, _, .pnone => some .snone
  | _, _, .pbool b => some (.sbool b)
  | _, _, .pint n => some (.sint n)
  | _, _, .pstr s => some (.sstr s)
  | 0, _, .ref _ => none
  | fuel + 1, visited, .ref a =>
      if a ∈ visited then some (.sstr "<circular reference>")
      else
        match heap.lookup a with
        | some (.list items) =>
            (items.mapM (serializeValue heap fuel (a :: visited))).map .slist
        | some (.dict entries) =>
            (entries.mapM (fun kv =>
              (serializeValue heap fuel (a :: visited) kv.2).map (fun r => (kv.1, r)))).map .sdict
        | some (.dataclass _) => asdictVal heap fuel (.ref a)
        | none => some .snone

/-! ### Concrete inputs used by the closed theorems -/

/-- A stage with no attached records (C1 failing input). -/
def emptyStage1 : Stage := { name := "s1" }

/-- A second empty stage (C1 failing input). -/
def emptyStage2 : Stage := { name := "s2" }

/-- Equilibration stage of scenario S2: trajectory ends at 1000.0 ps with
per-frame interval 0.5 ps. -/
def stageS2A : Stage :=
  { name := "equil", mdcrd := some { details := some { time_end := some 1000, avg_dt := some (1/2) } } }

/-- Production stage of scenario S2: restart reports 1000.5 ps, no
expected gap. -/
def stageS2B : Stage :=
  { name := "prod", inpcrd := some { details := some { time := some (2001/2) } } }

/-- Stage of scenario S3: parsed topology with `natom = 64528`, parsed
restart with `natoms = 64530`. -/
def stageS3 : Stage :=
  { prmtop := some { details := some { natom := some 64528 } },
    inpcrd := some { details := some { natoms := 64530 } } }

/-- Claim C1: the cross-stage validator is not idempotent — the second
`validate()` run appends every note a second time (note lists are
extended, never cleared), so the per-stage lists differ from a single
run.  This theorem evaluates both runs on a protocol of two empty
stages. -/
theorem validator_second_run_duplicates_notes :
    (protocolValidate true [emptyStage1, emptyStage2]).map (fun s => s.validation) =
      [["No atom counts available for validation."],
       ["No atom counts available for validation.",
        "INFO: Cannot verify continuity between s1 and s2 (missing mdcrd from s1, inpcrd from s2)"]]
    ∧ (protocolValidate true (protocolValidate true [emptyStage1, emptyStage2])).map
        (fun s => s.validation) =
      [["No atom counts available for validation.",
        "No atom counts available for validation."],
       ["No atom counts available for validation.",
        "INFO: Cannot verify continuity between s1 and s2 (missing mdcrd from s1, inpcrd from s2)",
        "No atom counts available for validation.",
        "INFO: Cannot verify continuity between s1 and s2 (missing mdcrd from s1, inpcrd from s2)"]]
    ∧ (protocolValidate true (protocolValidate true [emptyStage1, emptyStage2])).map
        (fun s => s.continuity) ≠
      (protocolValidate true [emptyStage1, emptyStage2]).map (fun s => s.continuity) := by
  decide

unseal Rat.add Rat.sub Rat.mul Rat.inv in
/-- Claim C3 (counterexample): on scenario S2 the validator does *not*
collapse the 0.5 ps fencepost difference (the tolerance is
`max(1e-6, 0.5·1e-6)`, far below 0.5), so the claimed outcome — observed
gap `0.0` and no overlap/gap note — is false. -/
theorem fencepost_gap_counterexample :
    ¬ (((protocolValidate true [stageS2A, stageS2B]).get ⟨1, by decide⟩).observed_gap_ps = some 0
       ∧ ((protocolValidate true [stageS2A, stageS2B]).get ⟨1, by decide⟩).continuity = []) := by
  decide

unseal Rat.add Rat.sub Rat.mul Rat.inv in
/-- Claim C3 (amended): on scenario S2 validation sets
`observed_gap_ps = 0.5` on the second stage and emits a gap note (plus
the no-expectation advisory), because `0.5` exceeds the collapse
tolerance `max(1e-6, 0.5·1e-6)`. -/
theorem fencepost_gap_amended :
    ((protocolValidate true [stageS2A, stageS2B]).get ⟨1, by decide⟩).observed_gap_ps = some (1/2)
    ∧ ((protocolValidate true [stageS2A, stageS2B]).get ⟨1, by decide⟩).continuity =
        ["Stage starts 0.5 ps after previous ended.",
         "Gap detected without stated expectation; verify continuity."] := by
  decide

/-- Claim C4: scenario S3 — topology reporting 64528 atoms against a
restart reporting 64530 — produces *no* `Atom count mismatch` note:
`_validate_atoms` reads the `n_atoms` attribute, which `PrmtopMetadata`
does not define (its count is stored as `natom`), so the topology count
is never collected and the two remaining sources do not disagree.  The
claimed note `Atom count mismatch across ['prmtop', 'inpcrd']:
[64528, 64530]` is never emitted. -/
theorem atom_mismatch_prmtop_note_not_emitted :
    validateAtoms stageS3 = [] ∧ (stageValidate stageS3).validation = [] := by
  decide


/-! ### Structural lemmas for the continuity theorem (C2) -/

theorem stageValidate_mdcrdDetails (s : Stage) :
    (stageValidate s).mdcrdDetails = s.mdcrdDetails := rfl

theorem stageValidate_inpcrdDetails (s : Stage) :
    (stageValidate s).inpcrdDetails = s.inpcrdDetails := rfl

theorem stageValidate_expected_gap (s : Stage) :
    (stageValidate s).expected_gap_ps = s.expected_gap_ps := rfl

theorem checkContinuity_length (l : List Stage) :
    (checkContinuity l).length = l.length := by
  cases l with
  | nil => rfl
  | cons s0 rest =>
      simp only [checkContinuity, List.length_cons, List.length_zipWith]
      omega

theorem protocolValidate_length (crossStage : Bool) (stages : List Stage) :
    (protocolValidate crossStage stages).length = stages.length := by
  cases crossStage <;> simp [protocolValidate, checkContinuity_length]

theorem checkContinuity_get_succ (l : List Stage) (i : Nat)
    (hi1 : i < l.length) (hi : i + 1 < l.length)
    (hh : i + 1 < (checkContinuity l).length) :
    (checkContinuity l).get ⟨i + 1, hh⟩ =
      updateStage (l.get ⟨i, hi1⟩) (l.get ⟨i + 1, hi⟩) := by
  cases l with
  | nil => simp at hi
  | cons s0 rest =>
      have hz : i < (List.zipWith updateStage (s0 :: rest) rest).length := by
        simp only [List.length_zipWith, List.length_cons]
        simp only [List.length_cons] at hi
        omega
      have : (checkContinuity (s0 :: rest)).get ⟨i + 1, hh⟩ =
          (List.zipWith updateStage (s0 :: rest) rest).get ⟨i, hz⟩ := by
        simp [checkContinuity]
      rw [this]
      simp [List.get_eq_getElem, List.getElem_zipWith]

/-- Claim C2: for consecutive stages with known trajectory end-time,
restart time and previous per-frame interval, a full validation run sets
the second stage's `observed_gap_ps` to `start − end`, collapsed to `0`
exactly when no `expected_gap_ps` is set and
`|start − end| ≤ max(1e-6, prev_dt·1e-6)`. -/
theorem continuity_observed_gap_formula (stages : List Stage) (i : Nat)
    (hi1 : i < stages.length) (hi : i + 1 < stages.length)
    (hlen : i + 1 < (protocolValidate true stages).length)
    (pd : MdcrdDetails) (cd : InpcrdDetails) (endT startT prevDt : Rat)
    (hp : (stages.get ⟨i, hi1⟩).mdcrdDetails = some pd)
    (hc : (stages.get ⟨i + 1, hi⟩).inpcrdDetails = some cd)
    (he : pd.time_end = some endT) (hs : cd.time = some startT)
    (hd : pd.avg_dt = some prevDt) :
    ((protocolValidate true stages).get ⟨i + 1, hlen⟩).observed_gap_ps =
      some (if (stages.get ⟨i + 1, hi⟩).expected_gap_ps = none
              ∧ |startT - endT| ≤ max (1/1000000 : Rat) (prevDt * (1/1000000))
            then 0 else startT - endT) := by
  have hmap1 : i < (stages.map stageValidate).length := by simpa using hi1
  have hmap : i + 1 < (stages.map stageValidate).length := by simpa using hi
  have hcc : i + 1 < (checkContinuity (stages.map stageValidate)).length := by
    rw [checkContinuity_length]; simpa using hi
  have hpv : (protocolValidate true stages).get ⟨i + 1, hlen⟩ =
      (checkContinuity (stages.map stageValidate)).get ⟨i + 1, hcc⟩ := by
    simp [protocolValidate]
  rw [hpv, checkContinuity_get_succ _ i hmap1 hmap hcc]
  have hga : (stages.map stageValidate).get ⟨i, hmap1⟩ =
      stageValidate (stages.get ⟨i, hi1⟩) := by
    simp [List.get_eq_getElem]
  have hgb : (stages.map stageValidate).get ⟨i + 1, hmap⟩ =
      stageValidate (stages.get ⟨i + 1, hi⟩) := by
    simp [List.get_eq_getElem]
  rw [hga, hgb]
  set a := stages.get ⟨i, hi1⟩ with ha
  set b := stages.get ⟨i + 1, hi⟩ with hb
  have hpa : (stageValidate a).mdcrdDetails = some pd := by
    rw [stageValidate_mdcrdDetails]; exact hp
  have hcb : (stageValidate b).inpcrdDetails = some cd := by
    rw [stageValidate_inpcrdDetails]; exact hc
  have hexp : (stageValidate b).expected_gap_ps = b.expected_gap_ps := rfl
  unfold updateStage
  simp only [continuityUpdate, hpa, hcb, he, hs, hd, hexp]
  cases hE : b.expected_gap_ps with
  | none => simp [hE, le_sup_iff, or_comm]
  | some e => simp [hE]



/-- First stage for the C2 witness: trajectory ends at 1000.0 ps,
per-frame interval 0.5 ps. -/
def stageC2A : Stage :=
  { name := "a", mdcrd := some { details := some { time_end := some 1000, avg_dt := some (1/2) } } }

/-- Second stage for the C2 witness: restart at 1000.0000001 ps (a 1e-7 ps
float-noise gap, inside the collapse tolerance). -/
def stageC2B : Stage :=
  { name := "b", inpcrd := some { details := some { time := some (10000000001/10000000) } } }

/-- Witness for `continuity_observed_gap_formula`: a concrete protocol
whose 1e-7 ps gap is collapsed to zero. -/
theorem continuity_observed_gap_formula_witness :
    ((protocolValidate true [stageC2A, stageC2B]).get ⟨1, by decide⟩).observed_gap_ps =
      some (if (([stageC2A, stageC2B]).get ⟨1, by decide⟩).expected_gap_ps = none
              ∧ |(10000000001/10000000 : Rat) - 1000| ≤ max (1/1000000 : Rat) ((1/2) * (1/1000000))
            then 0 else (10000000001/10000000 : Rat) - 1000) :=
  continuity_observed_gap_formula [stageC2A, stageC2B] 0 (by decide) (by decide) (by decide)
    { time_end := some 1000, avg_dt := some (1/2) } { time := some (10000000001/10000000) }
    1000 (10000000001/10000000) (1/2) rfl rfl rfl rfl rfl

/-! ### Manifest error aggregation (C5) -/

theorem collectMissing_eq_ok (fsExists : String → Bool) (directory : Option String)
    (entries : List ManifestEntry)
    (hnames : ∀ e ∈ entries, nameTruthy e.name = true) :
    collectMissing fsExists directory entries =
      .ok ((entries.map (fun e => entryMissingLines fsExists directory e (e.name.getD ""))).flatten) := by
  induction entries with
  | nil => rfl
  | cons e rest ih =>
      have he := hnames e (List.mem_cons_self _ _)
      obtain ⟨n, hn⟩ : ∃ n, e.name = some n := by
        cases hne : e.name with
        | none => rw [hne] at he; simp [nameTruthy] at he
        | some n => exact ⟨n, rfl⟩
      have hnn : ¬ (n = "") := by
        rw [hn] at he; simpa [nameTruthy] using he
      simp only [collectMissing, hn, hnn, if_neg, List.map_cons, List.flatten_cons,
        not_false_eq_true]
      rw [ih (fun x hx => hnames x (List.mem_cons_of_mem _ hx))]
      rfl

/-- Claim C5: a manifest referencing at least one missing file produces a
single aggregated `FileNotFoundError` whose message lists the line
`stage '<name>', <kind>: <path>` for **every** missing reference of every
entry, and no stage list is returned (validation runs before any stage is
constructed). -/
theorem manifest_missing_files_aggregated (P : Parsers) (fsExists : String → Bool)
    (directory : Option String) (includeRoles includeStems : Option (List String))
    (restartFiles : List (String × String)) (entries : List ManifestEntry)
    (hnames : ∀ e ∈ entries, nameTruthy e.name = true)
    (hmissing : (entries.map (fun e => entryMissingLines fsExists directory e (e.name.getD ""))).flatten ≠ []) :
    manifestToStages P fsExists directory includeRoles includeStems restartFiles entries =
      .error (.fileNotFound ("Manifest references missing files:\n" ++
        String.intercalate "\n"
          ((entries.map (fun e => entryMissingLines fsExists directory e (e.name.getD ""))).flatten))) := by
  unfold manifestToStages validateManifest
  rw [collectMissing_eq_ok fsExists directory entries hnames]
  simp [hmissing]

/-- Parsers that return empty records (only stage structure matters for
the manifest-error witness). -/
def emptyParsers : Parsers :=
  ⟨fun _ => ⟨none⟩, fun _ => ⟨none⟩, fun _ => ⟨none⟩, fun _ => ⟨none⟩, fun _ => ⟨none⟩⟩

/-- Witness manifest entry with one top-level missing file. -/
def entryC5A : ManifestEntry := { name := some "stage1", top := [("prmtop", some "a.prmtop")] }

/-- Witness manifest entry with one missing file under `files`. -/
def entryC5B : ManifestEntry := { name := some "stage2", files := [("mdin", some "b.mdin")] }

/-- Witness for `manifest_missing_files_aggregated`: two entries, each
with one missing path; both are named in the single error. -/
theorem manifest_missing_files_aggregated_witness :
    manifestToStages emptyParsers (fun _ => false) (some "base") none none [] [entryC5A, entryC5B] =
      .error (.fileNotFound ("Manifest references missing files:\n" ++
        String.intercalate "\n"
          (([entryC5A, entryC5B].map (fun e =>
            entryMissingLines (fun _ => false) (some "base") e (e.name.getD ""))).flatten))) :=
  manifest_missing_files_aggregated emptyParsers (fun _ => false) (some "base") none none []
    [entryC5A, entryC5B] (by decide) (by decide)



/-! ### Methods-view pruning (C6) -/

theorem pruneDictEntries_eq_filterMap (entries : List (String × MVal)) :
    pruneDictEntries entries = entries.filterMap (fun kv =>
      if pruneSkip (pruneMethodsValue kv.2) then none
      else some (kv.1, pruneMethodsValue kv.2)) := by
  induction entries with
  | nil => simp [pruneDictEntries]
  | cons kv rest ih =>
      cases kv with
      | mk k v =>
          rw [pruneDictEntries, ih]
          by_cases h : pruneSkip (pruneMethodsValue v) <;> simp [h, List.filterMap_cons]

theorem pruneListItems_eq_filterMap (items : List MVal) :
    pruneListItems items = items.filterMap (fun v =>
      if pruneSkip (pruneMethodsValue v) then none else some (pruneMethodsValue v)) := by
  induction items with
  | nil => simp [pruneListItems]
  | cons v rest ih =>
      rw [pruneListItems, ih]
      by_cases h : pruneSkip (pruneMethodsValue v) <;> simp [h, List.filterMap_cons]

/-- Claim C6: methods-view pruning removes exactly `None`, empty mappings
and empty lists (after recursive cleaning), and every other value
survives unchanged; in particular `False`, `0` and `""` are fixed points
and survive as dict entries and list items. -/
theorem prune_drops_only_empty :
    ((∀ b, pruneMethodsValue (.bool b) = .bool b)
      ∧ (∀ n : Int, pruneMethodsValue (.int n) = .int n)
      ∧ (∀ q : Rat, pruneMethodsValue (.num q) = .num q)
      ∧ (∀ s, pruneMethodsValue (.str s) = .str s))
    ∧ (∀ entries, pruneMethodsValue (.dict entries) =
        .dict (entries.filterMap (fun kv =>
          if pruneSkip (pruneMethodsValue kv.2) then none
          else some (kv.1, pruneMethodsValue kv.2))))
    ∧ (∀ items, pruneMethodsValue (.list items) =
        .list (items.filterMap (fun v =>
          if pruneSkip (pruneMethodsValue v) then none else some (pruneMethodsValue v))))
    ∧ (∀ entries (k : String) (v : MVal), (k, v) ∈ entries →
        pruneSkip (pruneMethodsValue v) = false →
        (k, pruneMethodsValue v) ∈ pruneDictEntries entries)
    ∧ (∀ entries (k : String), (k, MVal.bool false) ∈ entries →
        (k, MVal.bool false) ∈ pruneDictEntries entries)
    ∧ (∀ entries (k : String), (k, MVal.int 0) ∈ entries →
        (k, MVal.int 0) ∈ pruneDictEntries entries)
    ∧ (∀ entries (k : String), (k, MVal.str "") ∈ entries →
        (k, MVal.str "") ∈ pruneDictEntries entries) := by
  have hscalarB : ∀ b, pruneMethodsValue (.bool b) = .bool b := fun b => by
    simp [pruneMethodsValue]
  have hscalarI : ∀ n : Int, pruneMethodsValue (.int n) = .int n := fun n => by
    simp [pruneMethodsValue]
  have hscalarS : ∀ s, pruneMethodsValue (.str s) = .str s := fun s => by
    simp [pruneMethodsValue]
  have hmem : ∀ entries (k : String) (v : MVal), (k, v) ∈ entries →
      pruneSkip (pruneMethodsValue v) = false →
      (k, pruneMethodsValue v) ∈ pruneDictEntries entries := by
    intro entries k v hv hskip
    rw [pruneDictEntries_eq_filterMap]
    exact List.mem_filterMap.mpr ⟨(k, v), hv, by simp [hskip]⟩
  refine ⟨⟨hscalarB, hscalarI, fun q => by simp [pruneMethodsValue], hscalarS⟩,
    ?_, ?_, hmem, ?_, ?_, ?_⟩
  · intro entries; rw [pruneMethodsValue, pruneDictEntries_eq_filterMap]
  · intro items; rw [pruneMethodsValue, pruneListItems_eq_filterMap]
  · intro entries k hk
    have := hmem entries k (.bool false) hk (by rw [hscalarB false]; rfl)
    simpa [hscalarB] using this
  · intro entries k hk
    have := hmem entries k (.int 0) hk (by rw [hscalarI 0]; rfl)
    simpa [hscalarI] using this
  · intro entries k hk
    have := hmem entries k (.str "") hk (by rw [hscalarS ""]; rfl)
    simpa [hscalarS] using this

/-- Witness for `prune_drops_only_empty`: the membership conjunct applied
to a concrete dict where `False`, `0` and `""` sit beside droppable
values. -/
theorem prune_drops_only_empty_witness :
    (("b", MVal.bool false) ∈
      [("a", MVal.pyNone), ("b", MVal.bool false), ("c", MVal.int 0), ("d", MVal.str "")])
    ∧ ("b", MVal.bool false) ∈ pruneDictEntries
        [("a", MVal.pyNone), ("b", MVal.bool false), ("c", MVal.int 0), ("d", MVal.str "")] := by
  refine ⟨by simp, ?_⟩
  exact prune_drops_only_empty.2.2.2.2.1
    [("a", MVal.pyNone), ("b", MVal.bool false), ("c", MVal.int 0), ("d", MVal.str "")]
    "b" (by simp)



/-! ### Shell-variable token preservation (C7) -/

theorem stripSet_id_sandwich (cs : List Char) (c d : Char) (l : List Char)
    (hc : cs.contains c = false) (hd : cs.contains d = false) :
    stripSet cs (c :: (l ++ [d])) = c :: (l ++ [d]) := by
  have hcm : c ∉ cs := by simpa using hc
  have hdm : d ∉ cs := by simpa using hd
  unfold stripSet
  have h1 : List.dropWhile (fun x => cs.contains x) (c :: (l ++ [d])) = c :: (l ++ [d]) := by
    simp [List.dropWhile_cons, hcm]
  rw [h1]
  have h2 : (c :: (l ++ [d])).reverse = d :: (l.reverse ++ [c]) := by
    simp
  rw [h2]
  have h3 : List.dropWhile (fun x => cs.contains x) (d :: (l.reverse ++ [c])) =
      d :: (l.reverse ++ [c]) := by
    simp [List.dropWhile_cons, hdm]
  rw [h3, ← h2, List.reverse_reverse]

theorem cleanValueL_dollar_brace (inner : List Char) :
    cleanValueL ('$' :: '{' :: inner ++ ['}']) =
      .str (String.mk ('$' :: '{' :: inner ++ ['}'])) := by
  have hshape : '$' :: '{' :: inner ++ ['}'] = '$' :: (('{' :: inner) ++ ['}']) := by simp
  unfold cleanValueL
  rw [hshape]
  rw [stripSet_id_sandwich pyWhitespace '$' '}' _ (by decide) (by decide),
      stripSet_id_sandwich [','] '$' '}' _ (by decide) (by decide),
      stripSet_id_sandwich ['"'] '$' '}' _ (by decide) (by decide),
      stripSet_id_sandwich ['\''] '$' '}' _ (by decide) (by decide)]
  simp [List.contains_cons]

theorem cleanValueL_dollar_paren (inner : List Char) :
    cleanValueL ('$' :: '(' :: inner ++ [')']) =
      .str (String.mk ('$' :: '(' :: inner ++ [')'])) := by
  have hshape : '$' :: '(' :: inner ++ [')'] = '$' :: (('(' :: inner) ++ [')']) := by simp
  unfold cleanValueL
  rw [hshape]
  rw [stripSet_id_sandwich pyWhitespace '$' ')' _ (by decide) (by decide),
      stripSet_id_sandwich [','] '$' ')' _ (by decide) (by decide),
      stripSet_id_sandwich ['"'] '$' ')' _ (by decide) (by decide),
      stripSet_id_sandwich ['\''] '$' ')' _ (by decide) (by decide)]
  simp [List.contains_cons]

theorem lookup_map_overwrite (l : List (String × NmlValue)) (k : String) (v : NmlValue)
    (h : l.any (fun kv => kv.1 = k) = true) :
    List.lookup k (l.map (fun kv => if kv.1 = k then (k, v) else kv)) = some v := by
  induction l with
  | nil => simp at h
  | cons kv rest ih =>
      obtain ⟨k1, v1⟩ := kv
      rw [List.map_cons]
      by_cases hk : k1 = k
      · have hif : (if (k1, v1).1 = k then (k, v) else (k1, v1)) = (k, v) := if_pos hk
        rw [hif]
        simp [List.lookup]
      · have hif : (if (k1, v1).1 = k then (k, v) else (k1, v1)) = (k1, v1) := if_neg hk
        rw [hif]
        have hr : rest.any (fun kv => kv.1 = k) = true := by
          rcases List.any_eq_true.mp h with ⟨x, hx, hxk⟩
          rcases List.mem_cons.mp hx with h1 | h2
          · rw [h1] at hxk
            exact absurd (of_decide_eq_true hxk) hk
          · exact List.any_eq_true.mpr ⟨x, h2, hxk⟩
        have hne : (k == k1) = false := by
          apply beq_eq_false_iff_ne.mpr
          intro hkk
          exact hk hkk.symm
        simp only [List.lookup, hne]
        exact ih hr

theorem lookup_append_new (l : List (String × NmlValue)) (k : String) (v : NmlValue)
    (h : l.any (fun kv => kv.1 = k) = false) :
    List.lookup k (l ++ [(k, v)]) = some v := by
  induction l with
  | nil => simp [List.lookup]
  | cons kv rest ih =>
      obtain ⟨k1, v1⟩ := kv
      rw [List.any_cons, Bool.or_eq_false_iff] at h
      obtain ⟨h1, h2⟩ := h
      have hk : ¬ (k1 = k) := of_decide_eq_false h1
      have hne : (k == k1) = false := by
        apply beq_eq_false_iff_ne.mpr
        intro hkk
        exact hk hkk.symm
      simp only [List.cons_append, List.lookup, hne]
      exact ih h2

theorem lookup_dictSet (l : List (String × NmlValue)) (k : String) (v : NmlValue) :
    List.lookup k (dictSet l k v) = some v := by
  unfold dictSet
  cases hb : l.any (fun kv => kv.1 = k) with
  | true =>
      rw [if_pos rfl]
      exact lookup_map_overwrite l k v hb
  | false =>
      rw [if_neg (by simp)]
      exact lookup_append_new l k v hb

theorem parseNamelistPairs_snoc (ms : List (String × String)) (k v : String) :
    parseNamelistPairs (ms ++ [(k, v)]) =
      dictSet (parseNamelistPairs ms) (pyLower k) (cleanValue v) := by
  simp [parseNamelistPairs, List.foldl_append]

theorem pyIn_dollar_head (rest : List Char) :
    pyIn "$" (String.mk ('$' :: rest)) = true := by
  simp [pyIn, List.tails, List.isPrefixOf, List.any_cons]

/-- Claim C7: a `${VAR}` or `$(cmd)` value token is stored in the
parameter mapping byte-for-byte as a string: `_clean_value` returns it
verbatim (the strips touch neither `$` nor the closing bracket, and the
`$` check fires before any numeric conversion), the storage loop maps the
lowercased key to exactly that string, and the numeric coercion helpers
refuse any `$`-containing string. -/
theorem namelist_dollar_tokens_byte_for_byte :
    (∀ inner : List Char, cleanValueL ('$' :: '{' :: inner ++ ['}']) =
        .str (String.mk ('$' :: '{' :: inner ++ ['}'])))
    ∧ (∀ inner : List Char, cleanValueL ('$' :: '(' :: inner ++ [')']) =
        .str (String.mk ('$' :: '(' :: inner ++ [')'])))
    ∧ (∀ (ms : List (String × String)) (k v : String),
        List.lookup (pyLower k) (parseNamelistPairs (ms ++ [(k, v)])) = some (cleanValue v))
    ∧ (∀ rest : List Char,
        asIntNml (.str (String.mk ('$' :: rest))) = none
        ∧ asFloatNml (.str (String.mk ('$' :: rest))) = none) := by
  refine ⟨cleanValueL_dollar_brace, cleanValueL_dollar_paren, ?_, ?_⟩
  · intro ms k v
    rw [parseNamelistPairs_snoc, lookup_dictSet]
  · intro rest
    constructor
    · simp [asIntNml, pyIn_dollar_head]
    · simp [asFloatNml, pyIn_dollar_head]



/-! ### Topology overlays (C8) -/

/-- A stage with a 0.004 ps timestep in its parsed input deck and no
topology attached. -/
def stageC8 : Stage :=
  { name := "prod", mdin := some { details := some { dt := 1/250 } } }

/-- A parsed HMR topology. -/
def hmrData : FileData PrmtopDetails := { details := some { natom := some 99 } }

/-- A parsed global topology. -/
def globalData : FileData PrmtopDetails := { details := some { natom := some 77 } }

unseal Rat.add Rat.sub Rat.mul Rat.inv in
/-- Claim C8 (counterexample): the overlays do not behave as claimed at a
concrete stage whose deck timestep is exactly 0.004 ps.  The HMR overlay
leaves the stage untouched — its `dt` probe reads a `dt` attribute off
the record wrappers, which do not define one — so the HMR topology is
*not* attached to this `dt ≥ 0.004` stage; and the global overlay
modifies a stage field other than the topology slot (it appends an INFO
note to `validation`). -/
theorem topology_overlays_counterexample :
    (stageC8.mdinDetails.map (fun d : MdinDetails => d.dt) = some (1/250)
      ∧ ((1 : Rat)/250 ≥ 1/250))
    ∧ applyHmrPrmtop hmrData "hmr.top" [stageC8] = [stageC8]
    ∧ stageC8.prmtop = none
    ∧ ((applyGlobalPrmtop globalData "sys.top" [stageC8]).get ⟨0, by decide⟩).validation
        ≠ stageC8.validation := by
  decide

theorem hmrStageDt_eq_none (s : Stage) : hmrStageDt s = none := by
  unfold hmrStageDt mdinWrapperDtAttr mdoutWrapperDtAttr
  cases s.mdin <;> cases s.mdout <;> rfl

/-- Claim C8 (amended): the HMR overlay never attaches its topology (the
`dt` probe reads attributes the wrapper dataclasses do not define, so it
is always `None`); the global overlay fills only absent topology slots,
leaves stages that already have a topology completely unchanged, and on
the stages it fills it modifies exactly the topology slot plus an INFO
note appended to the validation list. -/
theorem topology_overlays_amended :
    (∀ (hdata : FileData PrmtopDetails) (hname : String) (stages : List Stage),
        applyHmrPrmtop hdata hname stages = stages)
    ∧ (∀ (gdata : FileData PrmtopDetails) (gname : String) (stages : List Stage)
        (i : Nat) (hi : i < stages.length)
        (hgi : i < (applyGlobalPrmtop gdata gname stages).length),
        ((stages.get ⟨i, hi⟩).prmtop.isSome →
          (applyGlobalPrmtop gdata gname stages).get ⟨i, hgi⟩ = stages.get ⟨i, hi⟩)
        ∧ ((stages.get ⟨i, hi⟩).prmtop = none →
          (applyGlobalPrmtop gdata gname stages).get ⟨i, hgi⟩ =
            { stages.get ⟨i, hi⟩ with
              prmtop := some gdata,
              validation := (stages.get ⟨i, hi⟩).validation
                ++ ["INFO: using global prmtop: " ++ gname] })) := by
  constructor
  · intro hdata hname stages
    unfold applyHmrPrmtop
    have : ∀ s : Stage,
        (match hmrStageDt s with
         | some dt =>
             if dt ≥ 1/250 then
               { s with prmtop := some hdata,
                        validation := s.validation
                          ++ ["INFO: using HMR prmtop (dt=" ++ fmtG dt ++ " ps): " ++ hname] }
             else s
         | none => s) = s := by
      intro s
      rw [hmrStageDt_eq_none s]
    simp only [this, List.map_id_fun', id]
  · intro gdata gname stages i hi hgi
    have hget : (applyGlobalPrmtop gdata gname stages).get ⟨i, hgi⟩ =
        (if (stages.get ⟨i, hi⟩).prmtop.isNone then
          { stages.get ⟨i, hi⟩ with
            prmtop := some gdata,
            validation := (stages.get ⟨i, hi⟩).validation
              ++ ["INFO: using global prmtop: " ++ gname] }
         else stages.get ⟨i, hi⟩) := by
      unfold applyGlobalPrmtop
      simp [List.get_eq_getElem, List.getElem_map]
    constructor
    · intro hsome
      have h1 : (stages.get ⟨i, hi⟩).prmtop.isNone = false := by
        cases hp : (stages.get ⟨i, hi⟩).prmtop with
        | none => rw [hp] at hsome; simp at hsome
        | some x => rfl
      rw [hget, if_neg (by rw [h1]; simp)]
    · intro hnone
      have h1 : (stages.get ⟨i, hi⟩).prmtop.isNone = true := by rw [hnone]; rfl
      rw [hget, if_pos h1]

/-- Witness for `topology_overlays_amended`: the global overlay applied to
a one-stage protocol whose stage has no topology. -/
theorem topology_overlays_amended_witness :
    (applyGlobalPrmtop globalData "sys.top" [stageC8]).get ⟨0, by decide⟩ =
      { ([stageC8].get ⟨0, by decide⟩) with
        prmtop := some globalData,
        validation := (([stageC8].get ⟨0, by decide⟩)).validation
          ++ ["INFO: using global prmtop: " ++ "sys.top"] } :=
  (topology_overlays_amended.2 globalData "sys.top" [stageC8] 0 (by decide) (by decide)).2 rfl



/-! ### Stage roles (C9) -/

/-- A minimization deck: `imin = 1` in the control namelist. -/
def mdMin : MdinDetails := { cntrl_parameters := [("imin", .int 1)] }

/-- Parsers for the C9 counterexample: the mdin parser returns the parsed
minimization deck (whose `stage_role` was set by `_classify_stage`). -/
def parsersC9 : Parsers :=
  ⟨fun _ => ⟨none⟩, fun _ => ⟨none⟩, fun _ => ⟨some (mdinFinalizeStageRole mdMin)⟩,
   fun _ => ⟨none⟩, fun _ => ⟨none⟩⟩

/-- A manifest entry with no explicit `stage_role` and one mdin file. -/
def entryC9 : ManifestEntry := { name := some "min1", top := [("mdin", some "min1.in")] }

unseal Rat.add Rat.sub Rat.mul Rat.inv in
/-- Claim C9 (counterexample): a stage built from a manifest entry with no
explicit role and a minimization input deck gets
`stage_role = "Energy minimization"` — the free-form description produced
by `_classify_stage` — which is not one of the four closed values. -/
theorem stage_role_counterexample :
    ((manifestToStages parsersC9 (fun _ => true) none none none [] [entryC9]).toOption.map
      (fun l => l.map (fun s => s.stage_role))) = some [some "Energy minimization"]
    ∧ closedRoles.contains "Energy minimization" = false := by
  decide

theorem classifyPart_closed (p : String) (r : String) (h : classifyPart p = some r) :
    r ∈ closedRoles := by
  unfold classifyPart at h
  split_ifs at h <;> simp_all [closedRoles]

theorem loopParts_closed (parts : List String) (r : String) (h : loopParts parts = some r) :
    r ∈ closedRoles := by
  induction parts with
  | nil => simp [loopParts] at h
  | cons p rest ih =>
      rw [loopParts] at h
      cases hc : classifyPart p with
      | some x =>
          rw [hc] at h
          exact (Option.some_inj.mp h) ▸ classifyPart_closed p x hc
      | none =>
          rw [hc] at h
          exact ih h

/-- Claim C9 (amended): only path-based role inference is confined to the
closed set — `infer_stage_role_from_path` never returns anything outside
{`minimization`, `heating`, `equilibration`, `production`}.  Roles taken
verbatim from the manifest, or inferred from the parsed input deck
(`_classify_stage`), are free-form strings. -/
theorem path_inference_closed_roles (path : String) (r : String)
    (h : inferStageRoleFromPath path = some r) : r ∈ closedRoles := by
  simp only [inferStageRoleFromPath] at h
  cases hm : loopParts ((splitOnChar '/'
      ((path.toList.map Char.toLower).map (fun c => if c = '\\' then '/' else c))).map String.mk) with
  | some x =>
      rw [hm] at h
      exact (Option.some_inj.mp h) ▸ loopParts_closed _ x hm
  | none =>
      rw [hm] at h
      split_ifs at h <;> simp_all [closedRoles]

/-- Witness for `path_inference_closed_roles` at a concrete path. -/
theorem path_inference_closed_roles_witness :
    "production" ∈ closedRoles :=
  path_inference_closed_roles "runs/prod_001" "production" (by decide)



/-! ### Full-view serialization and cycles (C10) -/

/-- A heap with a single dataclass instance whose field refers back to the
instance itself. -/
def selfRefDataclassHeap : Heap := [(0, .dataclass [("next", .ref 0)])]

/-- A heap with a single list containing itself. -/
def selfRefListHeap : Heap := [(0, .list [.ref 0])]

theorem asdictVal_selfRef_diverges (fuel : Nat) :
    asdictVal selfRefDataclassHeap fuel (.ref 0) = none := by
  induction fuel with
  | zero => rfl
  | succ n ih =>
      have ih2 : asdictVal [(0, HNode.dataclass [("next", HVal.ref 0)])] n (.ref 0) = none := ih
      simp [asdictVal, selfRefDataclassHeap, List.lookup, List.mapM, List.mapM.loop, ih2]

/-- Claim C10: full-view serialization does *not* terminate on every
cyclic input.  A cycle that passes through a dataclass reaches the eager
`asdict(value)` conversion, which recurses with no cycle detection —
no recursion budget suffices, i.e. CPython raises `RecursionError` — so
the re-entered object is never rendered as `"<circular reference>"`.
(For a cycle through plain lists/dicts the visited-set detection does
work, as the second conjunct shows.) -/
theorem serialize_dataclass_cycle_diverges :
    (∀ fuel, serializeValue selfRefDataclassHeap fuel [] (.ref 0) = none)
    ∧ serializeValue selfRefListHeap 2 [] (.ref 0) =
        some (.slist [.sstr "<circular reference>"]) := by
  constructor
  · intro fuel
    cases fuel with
    | zero => rfl
    | succ n =>
        have h2 : asdictVal [(0, HNode.dataclass [("next", HVal.ref 0)])] n (.ref 0) = none :=
          asdictVal_selfRef_diverges n
        simp [serializeValue, selfRefDataclassHeap, List.lookup, h2]
  · rfl


end Ambermeta
